import Mathlib

/-!
Shallow embedding of the concurrent ticket-booking server (`src/server.js`).

Each seat is a record mirroring the JS seat object.  The HTTP handlers
`POST /lock`, `POST /confirm`, `POST /release`, the `setTimeout` auto-release
callback and the `setInterval` cleanup sweep become pure functions from a seat
(plus the caller's `userId` and the current wall-clock time `Date.now()`,
passed explicitly as `now : Nat`) to the updated seat together with the
response.  The scheduled-timer handle `timeoutId` is modelled as a `Bool`
recording whether a timer is pending.  JS truthiness of `lockExpiresAt`
(`null` and `0` are falsy) is modelled faithfully in the expiry checks.
-/

namespace TicketServer

/-- Seat status: the string field `status` of a seat object,
one of `'available' | 'locked' | 'booked'` (server.js line 23). -/
inductive Status where
  | available
  | locked
  | booked
deriving DecidableEq, Repr

/-- A seat record (server.js lines 20-28). -/
structure Seat where
  id : Nat
  status : Status
  lockOwner : Option String
  lockExpiresAt : Option Nat
  timeoutId : Bool
deriving DecidableEq, Repr

/-- `LOCK_DURATION_MS = 60 * 1000` (server.js line 14). -/
def LOCK_DURATION_MS : Nat := 60 * 1000

/-- `CLEANUP_INTERVAL_MS = 5 * 1000` (server.js line 15). -/
def CLEANUP_INTERVAL_MS : Nat := 5 * 1000

/-- The initial seat record put into the store for id `i`
(server.js lines 20-28): available, no owner, no expiry, no timer. -/
def mkSeat (i : Nat) : Seat :=
  { id := i
    status := .available
    lockOwner := none
    lockExpiresAt := none
    timeoutId := false }

/-- `releaseLock(seat)` (server.js lines 31-40): cancel any pending timer,
set status to available and clear owner and expiry. -/
def releaseLock (seat : Seat) : Seat :=
  { seat with
    timeoutId := false
    status := .available
    lockOwner := none
    lockExpiresAt := none }

/-- `scheduleAutoRelease(seat)` (server.js lines 43-53): clear any previous
timer and schedule a fresh one; in the model this records that a timer is
pending.  The body of the scheduled callback is `autoReleaseFire` below. -/
def scheduleAutoRelease (seat : Seat) : Seat :=
  { seat with timeoutId := true }

/-- The inline expiry check of the `/lock` handler, server.js line 95:
`seat.lockExpiresAt && Date.now() >= seat.lockExpiresAt`
(`null` and `0` are falsy in JS). -/
def lockExpiryCheck (e : Option Nat) (now : Nat) : Bool :=
  match e with
  | none => false
  | some t => t != 0 && decide (t ≤ now)

/-- The inline expiry check of the `/confirm` handler, server.js line 141:
`seat.lockExpiresAt && Date.now() >= seat.lockExpiresAt`. -/
def confirmExpiryCheck (e : Option Nat) (now : Nat) : Bool :=
  match e with
  | none => false
  | some t => t != 0 && decide (t ≤ now)

/-- The expiry part of the timer-callback guard, server.js line 48:
`seat.lockExpiresAt && Date.now() >= seat.lockExpiresAt`. -/
def timerExpiryCheck (e : Option Nat) (now : Nat) : Bool :=
  match e with
  | none => false
  | some t => t != 0 && decide (t ≤ now)

/-- The expiry part of the cleanup-sweep guard, server.js line 59:
`seat.lockExpiresAt && now >= seat.lockExpiresAt`. -/
def sweepExpiryCheck (e : Option Nat) (now : Nat) : Bool :=
  match e with
  | none => false
  | some t => t != 0 && decide (t ≤ now)

/-- Responses of the `/lock` handler (server.js lines 78-116). -/
inductive LockResult where
  | badRequest
  | alreadyBooked
  | lockConflict (holder : Option String)
  | refreshed (expiresAt : Nat)
  | locked (expiresAt : Nat)
deriving DecidableEq, Repr

/-- The acquisition fall-through of the `/lock` handler
(server.js lines 109-115): set status to locked, record the owner, set
expiry to `now + LOCK_DURATION_MS` and schedule the auto-release timer. -/
def acquireLock (seat : Seat) (userId : String) (now : Nat) : Seat × LockResult :=
  let seat :=
    { seat with
      status := .locked
      lockOwner := some userId
      lockExpiresAt := some (now + LOCK_DURATION_MS) }
  (scheduleAutoRelease seat, .locked (now + LOCK_DURATION_MS))

/-- The `POST /lock` handler (server.js lines 78-116), for a seat that was
found in the store.  An empty `userId` is falsy in JS, failing the request
validation on line 80. -/
def lock (seat : Seat) (userId : String) (now : Nat) : Seat × LockResult :=
  if userId = "" then (seat, .badRequest)
  else if seat.status = .booked then (seat, .alreadyBooked)
  else if seat.status = .locked then
    if lockExpiryCheck seat.lockExpiresAt now then
      acquireLock (releaseLock seat) userId now
    else if seat.lockOwner = some userId then
      let seat := { seat with lockExpiresAt := some (now + LOCK_DURATION_MS) }
      (scheduleAutoRelease seat, .refreshed (now + LOCK_DURATION_MS))
    else (seat, .lockConflict seat.lockOwner)
  else acquireLock seat userId now

/-- Responses of the `/confirm` handler (server.js lines 119-157). -/
inductive ConfirmResult where
  | badRequest
  | alreadyBooked
  | notLocked
  | notLockOwner (holder : Option String)
  | lockExpired
  | booked (owner : String)
deriving DecidableEq, Repr

/-- The `POST /confirm` handler (server.js lines 119-157), for a seat that
was found in the store. -/
def confirm (seat : Seat) (userId : String) (now : Nat) : Seat × ConfirmResult :=
  if userId = "" then (seat, .badRequest)
  else if seat.status = .booked then (seat, .alreadyBooked)
  else if seat.status ≠ .locked then (seat, .notLocked)
  else if seat.lockOwner ≠ some userId then (seat, .notLockOwner seat.lockOwner)
  else if confirmExpiryCheck seat.lockExpiresAt now then
    (releaseLock seat, .lockExpired)
  else
    ({ seat with
        timeoutId := false
        status := .booked
        lockOwner := some userId
        lockExpiresAt := none },
      .booked userId)

/-- Responses of the `/release` handler (server.js lines 160-173). -/
inductive ReleaseResult where
  | badRequest
  | notLocked
  | notLockOwner
  | released
deriving DecidableEq, Repr

/-- The `POST /release` handler (server.js lines 160-173), for a seat that
was found in the store. -/
def release (seat : Seat) (userId : String) : Seat × ReleaseResult :=
  if userId = "" then (seat, .badRequest)
  else if seat.status ≠ .locked then (seat, .notLocked)
  else if seat.lockOwner ≠ some userId then (seat, .notLockOwner)
  else (releaseLock seat, .released)

/-- The body of the scheduled auto-release callback (server.js lines 46-52):
release only if the seat is still locked and the lock has expired. -/
def autoReleaseFire (seat : Seat) (now : Nat) : Seat :=
  if seat.status = .locked && timerExpiryCheck seat.lockExpiresAt now then
    releaseLock seat
  else seat

/-- One seat's step of the periodic cleanup sweep (server.js lines 56-64):
release only if the seat is locked and the lock has expired. -/
def cleanupSweepSeat (seat : Seat) (now : Nat) : Seat :=
  if seat.status = .locked && sweepExpiryCheck seat.lockExpiresAt now then
    releaseLock seat
  else seat

/-- The full periodic cleanup sweep over the store (server.js lines 56-64). -/
def cleanupSweep (l : List Seat) (now : Nat) : List Seat :=
  l.map (fun seat => cleanupSweepSeat seat now)

/-- A sequence of `/lock` calls by one user at the given times, returning the
final seat and the list of responses in call order. -/
def lockMany (seat : Seat) (userId : String) : List Nat → Seat × List LockResult
  | [] => (seat, [])
  | now :: rest =>
    let step := lock seat userId now
    let more := lockMany step.1 userId rest
    (more.1, step.2 :: more.2)

/-- The call times hit the current lease window: starting from deadline
`expiry`, each call happens strictly before the deadline it sees, and each
successful refresh moves the deadline to `now + LOCK_DURATION_MS`. -/
def validRefreshTimes (expiry : Nat) : List Nat → Prop
  | [] => True
  | now :: rest => now < expiry ∧ validRefreshTimes (now + LOCK_DURATION_MS) rest

/-! ## Theorems about the handlers -/

/-- Sample seat for witnesses: seat 5 locked by alice, expiring at 1000. -/
def seatLockedAlice : Seat :=
  { id := 5, status := .locked, lockOwner := some "alice"
    lockExpiresAt := some 1000, timeoutId := true }

/-- Helper: a `/lock` call by the current owner of an unexpired lock takes
the refresh branch (server.js lines 99-104). -/
theorem lock_refresh (a : String) (ha : a ≠ "") (s : Seat) (t now : Nat)
    (hst : s.status = .locked) (hown : s.lockOwner = some a)
    (hexp : s.lockExpiresAt = some t) (hnow : now < t) :
    lock s a now =
      ({ s with lockExpiresAt := some (now + LOCK_DURATION_MS), timeoutId := true },
        .refreshed (now + LOCK_DURATION_MS)) := by
  have hck : lockExpiryCheck s.lockExpiresAt now = false := by
    simp [lockExpiryCheck, hexp, Nat.not_le.mpr hnow]
  simp [lock, ha, hst, hck, hown, scheduleAutoRelease]

/-- Helper: iterating owner refreshes at valid times keeps the seat locked
by the owner, answers every call with a refresh success, and leaves the
deadline at the last call time plus the lease duration. -/
theorem lockMany_refresh (a : String) (ha : a ≠ "") (ts : List Nat) :
    ∀ (s : Seat) (t : Nat),
      s.status = .locked → s.lockOwner = some a → s.lockExpiresAt = some t →
      validRefreshTimes t ts →
      (lockMany s a ts).1.status = .locked ∧
      (lockMany s a ts).1.lockOwner = some a ∧
      (lockMany s a ts).1.lockExpiresAt =
        some ((ts.map (fun n => n + LOCK_DURATION_MS)).getLastD t) ∧
      (lockMany s a ts).2 = ts.map (fun n => .refreshed (n + LOCK_DURATION_MS)) := by
  induction ts with
  | nil =>
    intro s t hst hown hexp _
    simpa [lockMany] using ⟨hst, hown, hexp⟩
  | cons now rest ih =>
    intro s t hst hown hexp hv
    obtain ⟨h1, h2⟩ := hv
    have hstep := lock_refresh a ha s t now hst hown hexp h1
    have ihr := ih { s with lockExpiresAt := some (now + LOCK_DURATION_MS), timeoutId := true }
      (now + LOCK_DURATION_MS) hst hown rfl h2
    simp only [lockMany, hstep]
    refine ⟨ihr.1, ihr.2.1, ?_, by simp [ihr.2.2.2]⟩
    simp only [List.map_cons, List.getLastD_cons]
    exact ihr.2.2.1

/-- C4: claiming is idempotent-refresh for the lock owner — a `/lock` call
by owner `a` on a seat `a` holds with an unexpired lease succeeds with a
refresh response, sets the deadline to `now + LOCK_DURATION_MS`, reschedules
the expiry timer and keeps the status locked; and any sequence of such calls
at valid times all succeed with refresh responses, leave the seat locked by
`a`, and push the deadline to the last call time plus the lease duration. -/
theorem claim4_owner_refresh_idempotent
    (a : String) (ha : a ≠ "") (s : Seat) (t : Nat)
    (hst : s.status = .locked) (hown : s.lockOwner = some a)
    (hexp : s.lockExpiresAt = some t) :
    (∀ now, now < t →
      lock s a now =
        ({ s with lockExpiresAt := some (now + LOCK_DURATION_MS), timeoutId := true },
          .refreshed (now + LOCK_DURATION_MS))) ∧
    (∀ ts : List Nat, validRefreshTimes t ts →
      (lockMany s a ts).1.status = .locked ∧
      (lockMany s a ts).1.lockOwner = some a ∧
      (lockMany s a ts).2 = ts.map (fun n => .refreshed (n + LOCK_DURATION_MS))) := by
  refine ⟨fun now hnow => lock_refresh a ha s t now hst hown hexp hnow, fun ts hv => ?_⟩
  have h := lockMany_refresh a ha ts s t hst hown hexp hv
  exact ⟨h.1, h.2.1, h.2.2.2⟩

theorem claim4_witness :
    "alice" ≠ "" ∧ seatLockedAlice.status = .locked ∧
      seatLockedAlice.lockOwner = some "alice" ∧
      seatLockedAlice.lockExpiresAt = some 1000 ∧ (500 : Nat) < 1000 ∧
      validRefreshTimes 1000 [500, 900] ∧
      lock seatLockedAlice "alice" 500 =
        ({ seatLockedAlice with
            lockExpiresAt := some (500 + LOCK_DURATION_MS), timeoutId := true },
          .refreshed (500 + LOCK_DURATION_MS)) ∧
      (lockMany seatLockedAlice "alice" [500, 900]).1.status = .locked ∧
      (lockMany seatLockedAlice "alice" [500, 900]).1.lockOwner = some "alice" ∧
      (lockMany seatLockedAlice "alice" [500, 900]).2 =
        [.refreshed (500 + LOCK_DURATION_MS), .refreshed (900 + LOCK_DURATION_MS)] := by
  have h := claim4_owner_refresh_idempotent "alice" (by decide) seatLockedAlice 1000
    (by rfl) (by rfl) (by rfl)
  have hv : validRefreshTimes 1000 [500, 900] := by
    simp [validRefreshTimes, LOCK_DURATION_MS]
  have h2 := h.2 [500, 900] hv
  exact ⟨by decide, by rfl, by rfl, by rfl, by decide, hv, h.1 500 (by decide),
    h2.1, h2.2.1, by simpa using h2.2.2⟩

/-- C5: booked is terminal — on a booked seat, `/lock` and `/confirm` fail
with the already-booked response, `/release` fails with not-locked, the
timer callback and the cleanup sweep are no-ops, and in every case the seat
is left unchanged. -/
theorem claim5_booked_terminal
    (s : Seat) (hst : s.status = .booked) (u : String) (hu : u ≠ "") (now : Nat) :
    lock s u now = (s, .alreadyBooked) ∧
      confirm s u now = (s, .alreadyBooked) ∧
      release s u = (s, .notLocked) ∧
      autoReleaseFire s now = s ∧
      cleanupSweepSeat s now = s := by
  have h1 : s.status ≠ .locked := by simp [hst]
  exact ⟨by simp [lock, hu, hst], by simp [confirm, hu, hst],
    by simp [release, hu, h1], by simp [autoReleaseFire, hst],
    by simp [cleanupSweepSeat, hst]⟩

/-- Sample seat for witnesses: seat 5 booked by alice. -/
def seatBookedAlice : Seat :=
  { id := 5, status := .booked, lockOwner := some "alice"
    lockExpiresAt := none, timeoutId := false }

theorem claim5_witness :
    seatBookedAlice.status = .booked ∧ "bob" ≠ "" ∧
      (lock seatBookedAlice "bob" 777 = (seatBookedAlice, .alreadyBooked) ∧
        confirm seatBookedAlice "bob" 777 = (seatBookedAlice, .alreadyBooked) ∧
        release seatBookedAlice "bob" = (seatBookedAlice, .notLocked) ∧
        autoReleaseFire seatBookedAlice 777 = seatBookedAlice ∧
        cleanupSweepSeat seatBookedAlice 777 = seatBookedAlice) :=
  ⟨by rfl, by decide, claim5_booked_terminal seatBookedAlice (by rfl) "bob" (by decide) 777⟩

/-- C7: `Expire` — the timer callback and the cleanup sweep — is a guarded
no-op: on any seat whose stored deadline is positive (as every stored
deadline is), it changes nothing unless the seat is locked with a passed
deadline, and when that guard holds both mechanisms release the seat to
available with owner and expiry cleared.  Neither returns any error. -/
theorem claim7_expire_guarded_noop
    (s : Seat) (now : Nat)
    (hpos : ∀ t, s.lockExpiresAt = some t → 0 < t) :
    (∀ t, s.status = .locked → s.lockExpiresAt = some t → t ≤ now →
      autoReleaseFire s now = releaseLock s ∧
      cleanupSweepSeat s now = releaseLock s ∧
      (releaseLock s).status = .available ∧
      (releaseLock s).lockOwner = none ∧
      (releaseLock s).lockExpiresAt = none) ∧
    (¬(s.status = .locked ∧ ∃ t, s.lockExpiresAt = some t ∧ t ≤ now) →
      autoReleaseFire s now = s ∧ cleanupSweepSeat s now = s) := by
  constructor
  · intro t hst hexp hnow
    have ht : 0 < t := hpos t hexp
    have hck : timerExpiryCheck s.lockExpiresAt now = true := by
      simp [timerExpiryCheck, hexp, hnow, Nat.pos_iff_ne_zero.mp ht]
    have hck' : sweepExpiryCheck s.lockExpiresAt now = true := by
      simp [sweepExpiryCheck, hexp, hnow, Nat.pos_iff_ne_zero.mp ht]
    exact ⟨by simp [autoReleaseFire, hst, hck], by simp [cleanupSweepSeat, hst, hck'],
      rfl, rfl, rfl⟩
  · intro hguard
    have hck : (s.status = Status.locked && timerExpiryCheck s.lockExpiresAt now) = false := by
      cases hst : s.status with
      | available => simp [hst]
      | booked => simp [hst]
      | locked =>
        rcases hexp : s.lockExpiresAt with _ | t
        · simp [timerExpiryCheck, hexp]
        · have hle : ¬(t ≤ now) := fun hle => hguard ⟨hst, t, hexp, hle⟩
          simp [timerExpiryCheck, hexp, hle]
    have hck' : (s.status = Status.locked && sweepExpiryCheck s.lockExpiresAt now) = false := by
      simpa [timerExpiryCheck, sweepExpiryCheck] using hck
    exact ⟨by simp [autoReleaseFire, hck], by simp [cleanupSweepSeat, hck']⟩

theorem claim7_witness :
    (∀ t, seatLockedAlice.lockExpiresAt = some t → 0 < t) ∧
      seatLockedAlice.status = .locked ∧
      seatLockedAlice.lockExpiresAt = some 1000 ∧ (1000 : Nat) ≤ 5000 ∧
      (autoReleaseFire seatLockedAlice 5000 = releaseLock seatLockedAlice ∧
        cleanupSweepSeat seatLockedAlice 5000 = releaseLock seatLockedAlice ∧
        (releaseLock seatLockedAlice).status = .available ∧
        (releaseLock seatLockedAlice).lockOwner = none ∧
        (releaseLock seatLockedAlice).lockExpiresAt = none) ∧
      (¬(seatBookedAlice.status = .locked ∧
          ∃ t, seatBookedAlice.lockExpiresAt = some t ∧ t ≤ 5000) →
        autoReleaseFire seatBookedAlice 5000 = seatBookedAlice ∧
        cleanupSweepSeat seatBookedAlice 5000 = seatBookedAlice) := by
  have hpos : ∀ t, seatLockedAlice.lockExpiresAt = some t → 0 < t := by
    intro t h
    simp [seatLockedAlice] at h
    omega
  have hpos' : ∀ t, seatBookedAlice.lockExpiresAt = some t → 0 < t := by
    intro t h
    simp [seatBookedAlice] at h
  refine ⟨hpos, by rfl, by rfl, by decide, ?_, ?_⟩
  · exact (claim7_expire_guarded_noop seatLockedAlice 5000 hpos).1 1000
      (by rfl) (by rfl) (by decide)
  · exact (claim7_expire_guarded_noop seatBookedAlice 5000 hpos').2

/-- C8: `/release` by the lock owner of a locked seat succeeds and makes the
seat available with owner, expiry and pending timer cleared, after which a
`/lock` call by any claimant succeeds and locks the seat for them; `/release`
fails with not-locked when the seat is not locked, and with not-lock-owner
when the caller does not hold the lock, leaving the seat unchanged. -/
theorem claim8_release_semantics
    (s : Seat) (u : String) (hu : u ≠ "") :
    (s.status = .locked → s.lockOwner = some u →
      release s u = (releaseLock s, .released) ∧
      (releaseLock s).status = .available ∧
      (releaseLock s).lockOwner = none ∧
      (releaseLock s).lockExpiresAt = none ∧
      (releaseLock s).timeoutId = false ∧
      (∀ (b : String) (now : Nat), b ≠ "" →
        lock (releaseLock s) b now =
          ({ s with
              status := .locked
              lockOwner := some b
              lockExpiresAt := some (now + LOCK_DURATION_MS)
              timeoutId := true },
            .locked (now + LOCK_DURATION_MS)))) ∧
    (s.status ≠ .locked → release s u = (s, .notLocked)) ∧
    (s.status = .locked → s.lockOwner ≠ some u → release s u = (s, .notLockOwner)) := by
  refine ⟨fun hst hown => ?_, fun hst => by simp [release, hu, hst],
    fun hst hown => by simp [release, hu, hst, hown]⟩
  refine ⟨by simp [release, hu, hst, hown], rfl, rfl, rfl, rfl, fun b now hb => ?_⟩
  simp [lock, releaseLock, hb, acquireLock, scheduleAutoRelease]

theorem claim8_witness :
    "alice" ≠ "" ∧ seatLockedAlice.status = .locked ∧
      seatLockedAlice.lockOwner = some "alice" ∧ "bob" ≠ "" ∧
      release seatLockedAlice "alice" = (releaseLock seatLockedAlice, .released) ∧
      (releaseLock seatLockedAlice).status = .available ∧
      (releaseLock seatLockedAlice).lockOwner = none ∧
      (releaseLock seatLockedAlice).lockExpiresAt = none ∧
      (releaseLock seatLockedAlice).timeoutId = false ∧
      lock (releaseLock seatLockedAlice) "bob" 2000 =
        ({ seatLockedAlice with
            status := .locked
            lockOwner := some "bob"
            lockExpiresAt := some (2000 + LOCK_DURATION_MS)
            timeoutId := true },
          .locked (2000 + LOCK_DURATION_MS)) := by
  have h := (claim8_release_semantics seatLockedAlice "alice" (by decide)).1
    (by rfl) (by rfl)
  exact ⟨by decide, by rfl, by rfl, by decide, h.1, h.2.1, h.2.2.1, h.2.2.2.1,
    h.2.2.2.2.1, h.2.2.2.2.2 "bob" 2000 (by decide)⟩

/-- C1: for a seat locked by claimant `a` with an unexpired lease
(`now < t`), a `/lock` call by any distinct claimant `b` fails with the
lock-conflict response reporting `a` as the current holder, and the seat is
unchanged. -/
theorem claim1_lock_conflict_reports_holder
    (a b : String) (hb : b ≠ "") (hab : b ≠ a)
    (s : Seat) (t now : Nat)
    (hst : s.status = .locked) (hown : s.lockOwner = some a)
    (hexp : s.lockExpiresAt = some t) (hnow : now < t) :
    lock s b now = (s, .lockConflict (some a)) := by
  have hck : lockExpiryCheck s.lockExpiresAt now = false := by
    simp [lockExpiryCheck, hexp, Nat.not_le.mpr hnow]
  have hab' : ¬a = b := fun h => hab h.symm
  have hb2 : s.lockOwner ≠ some b := by
    simp [hown, hab']
  simp [lock, hb, hst, hck, hb2, hown, hab']

theorem claim1_witness :
    "bob" ≠ "" ∧ "bob" ≠ "alice" ∧ seatLockedAlice.status = .locked ∧
      seatLockedAlice.lockOwner = some "alice" ∧
      seatLockedAlice.lockExpiresAt = some 1000 ∧ (500 : Nat) < 1000 ∧
      lock seatLockedAlice "bob" 500 = (seatLockedAlice, .lockConflict (some "alice")) := by
  refine ⟨by decide, by decide, rfl, rfl, rfl, by decide, ?_⟩
  exact claim1_lock_conflict_reports_holder "alice" "bob" (by decide) (by decide)
    _ 1000 500 rfl rfl rfl (by decide)

/-- C2: for a seat locked by the calling claimant whose lease has expired
(`t ≤ now`, with a positive deadline as every stored deadline is), `/confirm`
fails with the lock-expired response and, as part of that failure, the seat
is released: status available, owner and expiry cleared, pending timer
canceled. -/
theorem claim2_confirm_expired_releases
    (a : String) (ha : a ≠ "") (s : Seat) (t now : Nat)
    (hst : s.status = .locked) (hown : s.lockOwner = some a)
    (hexp : s.lockExpiresAt = some t) (ht : 0 < t) (hnow : t ≤ now) :
    confirm s a now = (releaseLock s, .lockExpired) ∧
      (releaseLock s).status = .available ∧
      (releaseLock s).lockOwner = none ∧
      (releaseLock s).lockExpiresAt = none ∧
      (releaseLock s).timeoutId = false := by
  have hck : confirmExpiryCheck s.lockExpiresAt now = true := by
    simp [confirmExpiryCheck, hexp, hnow, Nat.pos_iff_ne_zero.mp ht]
  refine ⟨?_, rfl, rfl, rfl, rfl⟩
  simp [confirm, ha, hst, hown, hck]

theorem claim2_witness :
    "alice" ≠ "" ∧ seatLockedAlice.status = .locked ∧
      seatLockedAlice.lockOwner = some "alice" ∧
      seatLockedAlice.lockExpiresAt = some 1000 ∧ (0 : Nat) < 1000 ∧ (1000 : Nat) ≤ 2000 ∧
      (confirm seatLockedAlice "alice" 2000 = (releaseLock seatLockedAlice, .lockExpired) ∧
        (releaseLock seatLockedAlice).status = .available ∧
        (releaseLock seatLockedAlice).lockOwner = none ∧
        (releaseLock seatLockedAlice).lockExpiresAt = none ∧
        (releaseLock seatLockedAlice).timeoutId = false) := by
  refine ⟨by decide, rfl, rfl, rfl, by decide, by decide, ?_⟩
  exact claim2_confirm_expired_releases "alice" (by decide) seatLockedAlice 1000 2000
    rfl rfl rfl (by decide) (by decide)

/-- C3: for a locked seat whose (positive) deadline has passed, a `/lock`
call by any claimant — the stale owner or anyone else, and regardless of the
pending-timer flag — treats the seat as available and succeeds: the stale
lock is released and the seat becomes locked by the caller with a fresh
expiry `now + LOCK_DURATION_MS`. -/
theorem claim3_stale_lock_reclaimable
    (u : String) (hu : u ≠ "") (s : Seat) (t now : Nat)
    (hst : s.status = .locked) (hexp : s.lockExpiresAt = some t)
    (ht : 0 < t) (hnow : t ≤ now) :
    lock s u now =
      ({ s with
          status := .locked
          lockOwner := some u
          lockExpiresAt := some (now + LOCK_DURATION_MS)
          timeoutId := true },
        .locked (now + LOCK_DURATION_MS)) := by
  have hck : lockExpiryCheck s.lockExpiresAt now = true := by
    simp [lockExpiryCheck, hexp, hnow, Nat.pos_iff_ne_zero.mp ht]
  simp [lock, hu, hst, hck, acquireLock, releaseLock, scheduleAutoRelease]

theorem claim3_witness :
    "bob" ≠ "" ∧ seatLockedAlice.status = .locked ∧
      seatLockedAlice.lockExpiresAt = some 1000 ∧ (0 : Nat) < 1000 ∧ (1000 : Nat) ≤ 2000 ∧
      lock seatLockedAlice "bob" 2000 =
        ({ seatLockedAlice with
            status := .locked
            lockOwner := some "bob"
            lockExpiresAt := some (2000 + LOCK_DURATION_MS)
            timeoutId := true },
          .locked (2000 + LOCK_DURATION_MS)) := by
  refine ⟨by decide, rfl, rfl, by decide, by decide, ?_⟩
  exact claim3_stale_lock_reclaimable "bob" (by decide) seatLockedAlice 1000 2000
    rfl rfl (by decide) (by decide)

/-- C9: `/confirm` checks ownership before expiry — for a seat locked by `a`
whose lease has already expired, a confirm call by a distinct claimant `b`
fails with the not-lock-owner response reporting `a`, not with lock-expired
or not-locked, and the seat is unchanged (still locked with the stale owner
and expiry). -/
theorem claim9_confirm_ownership_before_expiry
    (a b : String) (hb : b ≠ "") (hab : b ≠ a)
    (s : Seat) (t now : Nat)
    (hst : s.status = .locked) (hown : s.lockOwner = some a)
    (_hexp : s.lockExpiresAt = some t) (_hnow : t ≤ now) :
    confirm s b now = (s, .notLockOwner (some a)) := by
  have hab' : ¬a = b := fun h => hab h.symm
  have hb2 : s.lockOwner ≠ some b := by
    simp [hown, hab']
  simp [confirm, hb, hst, hb2, hown, hab']

theorem claim9_witness :
    "bob" ≠ "" ∧ "bob" ≠ "alice" ∧ seatLockedAlice.status = .locked ∧
      seatLockedAlice.lockOwner = some "alice" ∧
      seatLockedAlice.lockExpiresAt = some 1000 ∧ (1000 : Nat) ≤ 2000 ∧
      confirm seatLockedAlice "bob" 2000 = (seatLockedAlice, .notLockOwner (some "alice")) := by
  refine ⟨by decide, by decide, rfl, rfl, rfl, by decide, ?_⟩
  exact claim9_confirm_ownership_before_expiry "alice" "bob" (by decide) (by decide)
    seatLockedAlice 1000 2000 rfl rfl rfl (by decide)

/-- C10: the four expiry checks — `/lock`'s lazy check, `/confirm`'s lazy
check, the timer callback's check and the periodic sweep's check — are one
and the same predicate on any stored deadline, and for every positive
deadline `t` the boundary is inclusive: the lock counts as expired exactly
when `t ≤ now`, so at the instant `now = t` it is already void in all four
places. -/
theorem claim10_uniform_inclusive_expiry
    (t : Nat) (ht : 0 < t) :
    (∀ (e : Option Nat) (m : Nat),
        lockExpiryCheck e m = confirmExpiryCheck e m ∧
        confirmExpiryCheck e m = timerExpiryCheck e m ∧
        timerExpiryCheck e m = sweepExpiryCheck e m) ∧
      (∀ m : Nat, lockExpiryCheck (some t) m = true ↔ t ≤ m) ∧
      lockExpiryCheck (some t) t = true := by
  refine ⟨fun e m => ⟨rfl, rfl, rfl⟩, fun m => ?_, ?_⟩
  · simp [lockExpiryCheck, Nat.pos_iff_ne_zero.mp ht]
  · simp [lockExpiryCheck, Nat.pos_iff_ne_zero.mp ht]

theorem claim10_witness :
    (0 : Nat) < 1000 ∧
      ((∀ (e : Option Nat) (m : Nat),
          lockExpiryCheck e m = confirmExpiryCheck e m ∧
          confirmExpiryCheck e m = timerExpiryCheck e m ∧
          timerExpiryCheck e m = sweepExpiryCheck e m) ∧
        (∀ m : Nat, lockExpiryCheck (some 1000) m = true ↔ 1000 ≤ m) ∧
        lockExpiryCheck (some 1000) 1000 = true) :=
  ⟨by decide, claim10_uniform_inclusive_expiry 1000 (by decide)⟩

/-! ## The state-shape invariant -/

/-- The state-shape invariant on a seat: the status is one of the three
legal statuses, the owner is present exactly when the seat is locked or
booked, and the expiry is present exactly when the seat is locked. -/
def SeatInv (s : Seat) : Prop :=
  (s.status = .available ∨ s.status = .locked ∨ s.status = .booked) ∧
    (s.lockOwner.isSome ↔ (s.status = .locked ∨ s.status = .booked)) ∧
    (s.lockExpiresAt.isSome ↔ s.status = .locked)

/-- Every seat state reachable from the initial store (seats 1..20, all
available) through the handlers, the timer callback and the sweep. -/
inductive Reachable : Seat → Prop where
  | init (i : Nat) : 1 ≤ i → i ≤ 20 → Reachable (mkSeat i)
  | lockStep (s : Seat) (u : String) (now : Nat) :
      Reachable s → Reachable (lock s u now).1
  | confirmStep (s : Seat) (u : String) (now : Nat) :
      Reachable s → Reachable (confirm s u now).1
  | releaseStep (s : Seat) (u : String) :
      Reachable s → Reachable (release s u).1
  | timerStep (s : Seat) (now : Nat) :
      Reachable s → Reachable (autoReleaseFire s now)
  | sweepStep (s : Seat) (now : Nat) :
      Reachable s → Reachable (cleanupSweepSeat s now)

/-- Helper: the initial seats satisfy the invariant. -/
theorem SeatInv_mkSeat (i : Nat) : SeatInv (mkSeat i) := by
  simp [SeatInv, mkSeat]

/-- Helper: `releaseLock` establishes the invariant outright. -/
theorem SeatInv_releaseLock (s : Seat) : SeatInv (releaseLock s) := by
  simp [SeatInv, releaseLock]

/-- Helper: the `/lock` handler preserves the invariant. -/
theorem SeatInv_lock (s : Seat) (u : String) (now : Nat) (h : SeatInv s) :
    SeatInv (lock s u now).1 := by
  obtain ⟨h1, h2, h3⟩ := h
  unfold lock
  split
  · exact ⟨h1, h2, h3⟩
  split
  · exact ⟨h1, h2, h3⟩
  split
  · split
    · simp [acquireLock, scheduleAutoRelease, releaseLock, SeatInv]
    split
    · rename_i hu hnb hlk hnck hown
      refine ⟨by simp [scheduleAutoRelease, hlk], ?_, by simp [scheduleAutoRelease, hlk]⟩
      simpa [scheduleAutoRelease] using h2
    · exact ⟨h1, h2, h3⟩
  · simp [acquireLock, scheduleAutoRelease, SeatInv]

/-- Helper: the `/confirm` handler preserves the invariant. -/
theorem SeatInv_confirm (s : Seat) (u : String) (now : Nat) (h : SeatInv s) :
    SeatInv (confirm s u now).1 := by
  obtain ⟨h1, h2, h3⟩ := h
  unfold confirm
  split
  · exact ⟨h1, h2, h3⟩
  split
  · exact ⟨h1, h2, h3⟩
  split
  · exact ⟨h1, h2, h3⟩
  split
  · exact ⟨h1, h2, h3⟩
  split
  · exact SeatInv_releaseLock s
  · simp [SeatInv]

/-- Helper: the `/release` handler preserves the invariant. -/
theorem SeatInv_release (s : Seat) (u : String) (h : SeatInv s) :
    SeatInv (release s u).1 := by
  obtain ⟨h1, h2, h3⟩ := h
  unfold release
  split
  · exact ⟨h1, h2, h3⟩
  split
  · exact ⟨h1, h2, h3⟩
  split
  · exact ⟨h1, h2, h3⟩
  · exact SeatInv_releaseLock s

/-- Helper: the timer callback preserves the invariant. -/
theorem SeatInv_autoReleaseFire (s : Seat) (now : Nat) (h : SeatInv s) :
    SeatInv (autoReleaseFire s now) := by
  unfold autoReleaseFire
  split
  · exact SeatInv_releaseLock s
  · exact h

/-- Helper: one seat's cleanup-sweep step preserves the invariant. -/
theorem SeatInv_cleanupSweepSeat (s : Seat) (now : Nat) (h : SeatInv s) :
    SeatInv (cleanupSweepSeat s now) := by
  unfold cleanupSweepSeat
  split
  · exact SeatInv_releaseLock s
  · exact h

/-- C6: state-shape invariant — every seat state reachable from the initial
all-available store through `/lock`, `/confirm`, `/release`, the timer
callback and the cleanup sweep has a status among available, locked and
booked, an owner present exactly when locked or booked, and an expiry
present exactly when locked. -/
theorem claim6_state_shape_invariant (s : Seat) (h : Reachable s) : SeatInv s := by
  induction h with
  | init i _ _ => exact SeatInv_mkSeat i
  | lockStep s u now _ ih => exact SeatInv_lock s u now ih
  | confirmStep s u now _ ih => exact SeatInv_confirm s u now ih
  | releaseStep s u _ ih => exact SeatInv_release s u ih
  | timerStep s now _ ih => exact SeatInv_autoReleaseFire s now ih
  | sweepStep s now _ ih => exact SeatInv_cleanupSweepSeat s now ih

theorem claim6_witness :
    Reachable (lock (mkSeat 1) "alice" 0).1 ∧ SeatInv (lock (mkSeat 1) "alice" 0).1 := by
  have hr : Reachable (lock (mkSeat 1) "alice" 0).1 :=
    Reachable.lockStep (mkSeat 1) "alice" 0 (Reachable.init 1 (by decide) (by decide))
  exact ⟨hr, claim6_state_shape_invariant _ hr⟩

end TicketServer
